import Mathlib

/-!
# Verification of the `compileLatex` build orchestration core

This file gives a shallow embedding of `src/src/utils/latex.ts`, which contains
two variants of the `compileLatex` function:

* variant 1 (lines 1-175): the `process.chdir`-based variant, whose staging
  directory is the deterministic path `workingDir/../.latex-workflow/filenamify(filename)`
  (removed and recreated at the start of each build, never removed at the end);
* variant 2 (lines 176-337): the `tmp-promise`-based variant, whose staging
  directory is a fresh temporary directory removed in a `finally` block.

The embedding models the four filesystem locations that the code touches as
association lists of named entries: the working directory (the directory of the
LaTeX file), the staging (temp) directory, the output directory (which may not
exist), and the directory that `process.cwd()` points at when `compileLatex` is
entered (relative filesystem paths resolve against it unless variant 1 has
performed `process.chdir(tempDir)`).  External subprocesses (`lualatex`,
`pythontex`, `biber`, and the shell `ln`/`cp` used for mirroring) are opaque:
an oracle decides, per invocation, whether the subprocess succeeds and which
staging-directory contents a successful engine-style pass leaves behind.
Entries are treated as atomic units (kind and abstract content); a failing
subprocess is modelled as leaving the staging directory unchanged.
-/

/-- Kind of a directory entry, as observed by `fs.promises.lstat`. -/
inductive EKind where
  | file
  | dir
  | symlink
deriving DecidableEq, Repr

/-- A directory entry: its `lstat` kind and an abstract content value. -/
structure Entry where
  kind : EKind
  content : Nat
deriving DecidableEq, Repr

/-- A directory is a finite list of named entries (readdir order). -/
abbrev FsDir := List (String × Entry)

/-- Look up the entry with the given name (first match). -/
def dirLookup : FsDir → String → Option Entry
  | [], _ => none
  | (m, e) :: rest, n => if m = n then some e else dirLookup rest n

/-- Insert or overwrite the entry with the given name
(`fs.promises.cp` with `force: true`, the Node default). -/
def upsertForce : FsDir → String → Entry → FsDir
  | [], n, e => [(n, e)]
  | (m, e0) :: rest, n, e =>
    if m = n then (n, e) :: rest else (m, e0) :: upsertForce rest n e

/-- Insert the entry only when the name is absent
(`fs.promises.cp` with `force: false`, which silently skips existing
destinations since `errorOnExist` defaults to false). -/
def upsertKeep (d : FsDir) (n : String) (e : Entry) : FsDir :=
  if (dirLookup d n).isSome then d else d ++ [(n, e)]

/-- Remove the entry with the given name (`fs.promises.rm` with `force: true`:
no error when the name is absent). -/
def dirErase (d : FsDir) (n : String) : FsDir :=
  d.filter (fun p => p.1 != n)

/-- Index of the last dot in a list of characters. -/
def lastDotIdx : List Char → Option Nat
  | [] => none
  | c :: rest =>
    match lastDotIdx rest with
    | some i => some (i + 1)
    | none => if c = '.' then some 0 else none

/-- The extension of a base name, following Node `path.parse(name).ext`:
the substring from the last dot, unless that dot is the leading character
(dotfiles such as `.tex` have an empty extension). -/
def extOf (s : String) : String :=
  match lastDotIdx s.data with
  | none => ""
  | some 0 => ""
  | some i => String.mk (s.data.drop i)

/-- The external subprocesses that `compileLatex` spawns via `execa`. -/
inductive Tool where
  | lualatex
  | pythontex
  | biber
  | lnTool
  | cpTool
deriving DecidableEq, Repr

/-- Errors surfaced by the model.  `latexError` is the `LatexError` wrapper
that `runLatex` puts around any `execa` failure of `lualatex`/`pythontex`/
`biber`; `execaError` is a raw subprocess failure of the shell `ln`/`cp`
mirroring calls (not wrapped); `fsError` is a filesystem failure such as the
ENOENT that `fs.promises.lstat` raises on a missing path. -/
inductive Err where
  | latexError (msg : Nat)
  | execaError (msg : Nat)
  | fsError (msg : Nat)
deriving DecidableEq, Repr

/-- Outcome of one external subprocess invocation, decided by the oracle:
either the subprocess succeeds (and, for the engine-style tools invoked
through `runLatex`, leaves the given staging-directory contents behind), or
it exits non-zero with the given diagnostic message. -/
inductive ToolRes where
  | ok (d : FsDir)
  | fail (msg : Nat)

/-- Per-invocation behaviour of the external world, indexed by the number of
subprocess invocations made so far in this build. -/
abbrev Oracle := Nat → ToolRes

/-- An oracle on which every subprocess invocation succeeds, the n-th
engine-style invocation leaving staging contents `f n`. -/
def okOracle (f : Nat → FsDir) : Oracle := fun n => ToolRes.ok (f n)

/-- Immutable data of one build request. -/
structure Env where
  /-- `path.basename(latexFilePath, ".tex")` (the document is assumed to end
  in `.tex`, as the tool requires). -/
  filename : String
  /-- `path.basename(outputDirectory)` after resolution. -/
  outBase : String
  /-- The `ignoreDirectories` option. -/
  ignoreDirectories : List String
  /-- The external `compileJsLatex` transform applied to the document text
  (variant 2 only), abstracted as a function on content values. -/
  jsCompile : Nat → Nat

/-- Filesystem-and-trace state threaded through a build. -/
structure St where
  /-- Contents of the working directory `path.dirname(latexFilePath)`. -/
  working : FsDir
  /-- Contents of the staging (temp) directory. -/
  staging : FsDir
  /-- Whether the staging directory currently exists on disk. -/
  stagingExists : Bool
  /-- Contents of the output directory, `none` when it does not exist. -/
  output : Option FsDir
  /-- Contents of the directory `process.cwd()` pointed at on entry. -/
  initCwd : FsDir
  /-- Whether variant 1 has performed `process.chdir(tempDir)`. -/
  cwdIsStaging : Bool
  /-- Subprocess invocations so far: the tool and the staging contents at the
  moment of invocation. -/
  trace : List (Tool × FsDir)
  /-- Number of subprocess invocations so far (oracle index). -/
  toolCtr : Nat
deriving DecidableEq, Repr

/-- Sequencing with early exit on error (`await` under `try`). -/
def andThen (r : St × Option Err) (k : St → St × Option Err) : St × Option Err :=
  match r with
  | (st, none) => k st
  | (st, some e) => (st, some e)

/-- One engine-style invocation through `runLatex` (`lualatex`, `pythontex`,
`biber`): on success the staging directory becomes whatever the tool left
behind; on failure the `execa` error is wrapped into a `LatexError`. -/
def callLatex (o : Oracle) (t : Tool) (st : St) : St × Option Err :=
  let st1 : St := { st with trace := st.trace ++ [(t, st.staging)], toolCtr := st.toolCtr + 1 }
  match o st.toolCtr with
  | ToolRes.ok d => ({ st1 with staging := d }, none)
  | ToolRes.fail m => (st1, some (Err.latexError m))

/-- One shell invocation (`ln -s ... tempDir` or `cp ... tempDir`): on success
the modelled effect `eff` is applied to the staging directory; on failure the
raw `execa` error propagates (these calls are not wrapped by `runLatex`). -/
def callShell (o : Oracle) (t : Tool) (eff : FsDir → FsDir) (st : St) : St × Option Err :=
  let st1 : St := { st with trace := st.trace ++ [(t, st.staging)], toolCtr := st.toolCtr + 1 }
  match o st.toolCtr with
  | ToolRes.ok _ => ({ st1 with staging := eff st.staging }, none)
  | ToolRes.fail m => (st1, some (Err.execaError m))

/-- The working-directory entries selected for symlinking (lines 68-77 and
271-280): not ignored, extension not `.tex`, and not the base name of the
output directory. -/
def workingDirEntriesToSymlink (env : Env) (names : List String) : List String :=
  names.filter (fun n =>
    !(env.ignoreDirectories.contains n) && extOf n != ".tex" && n != env.outBase)

/-- The working-directory entries selected for copying (lines 79-86 and
282-289): not ignored and extension `.tex`.  Note: unlike the symlink filter,
this filter does not exclude the base name of the output directory. -/
def workingDirEntriesToCopy (env : Env) (names : List String) : List String :=
  names.filter (fun n =>
    !(env.ignoreDirectories.contains n) && extOf n == ".tex")

/-- The staging entry created by `ln -s src tempDir`: a symbolic link. -/
def linkEntry (e : Entry) : Entry := { kind := EKind.symlink, content := e.content }

/-- The staging entry created by the shell `cp src tempDir`: a real copy
(`cp` dereferences, so the result is a plain file with the same content). -/
def copyEntry (e : Entry) : Entry := { kind := EKind.file, content := e.content }

/-- Apply one batched `ln`/`cp` invocation: for every selected name, place
`mk` of the source entry into the destination directory. -/
def applyBatch (mk : Entry → Entry) (w : FsDir) (names : List String) (d : FsDir) : FsDir :=
  names.foldl (fun acc n =>
    match dirLookup w n with
    | some e => upsertForce acc n (mk e)
    | none => acc) d

/-- The source-mirroring stage shared verbatim by both variants (lines 67-97
and 270-300): enumerate the working directory, symlink the non-`.tex`
non-output entries in one `ln -s` batch, then copy the `.tex` entries in one
`cp` batch.  Either batch is skipped when its selection is empty. -/
def mirrorWorkingDir (env : Env) (o : Oracle) (st : St) : St × Option Err :=
  let names := st.working.map Prod.fst
  let toLink := workingDirEntriesToSymlink env names
  let toCopy := workingDirEntriesToCopy env names
  andThen
    (if toLink.isEmpty then (st, none)
     else callShell o Tool.lnTool (applyBatch linkEntry st.working toLink) st)
    (fun st1 =>
      if toCopy.isEmpty then (st1, none)
      else callShell o Tool.cpTool (applyBatch copyEntry st1.working toCopy) st1)

/-- The pure mirror result on an initially empty staging directory (the
composite effect of both batches when both subprocesses succeed). -/
def mirroredDir (env : Env) (w : FsDir) : FsDir :=
  applyBatch copyEntry w (workingDirEntriesToCopy env (w.map Prod.fst))
    (applyBatch linkEntry w (workingDirEntriesToSymlink env (w.map Prod.fst)) [])

/-- Variant 1 staging acquisition (lines 58-63): `rm -rf` then `mkdir` at the
deterministic path `workingDir/../.latex-workflow/filenamify(filename)`.
The path is a function of the build request alone, so the directory may
already exist from a previous build; it is cleared, not freshly named. -/
def acquireStaging1 (st : St) : St :=
  { st with staging := [], stagingExists := true }

/-- Variant 2 staging acquisition (line 237): the `dir()` call of `tmp-promise` creates
a fresh, empty temporary directory. -/
def acquireStaging2 (st : St) : St :=
  { st with staging := [], stagingExists := true }

/-- Variant 1, lines 99-107: `process.chdir(tempDir)` followed by removal of
the stale pythontex cache directory and marker file.  The `rm` paths are
relative and the working directory of the process is now the staging
directory, so the removals hit the staging directory. -/
def cleanPythontex1 (env : Env) (st : St) : St :=
  { st with cwdIsStaging := true,
            staging :=
              dirErase (dirErase st.staging ("pythontex-files-" ++ env.filename))
                (env.filename ++ ".pytxcode") }

/-- Variant 2, lines 302-307: the same two `fs.promises.rm` calls with the
same relative paths, but variant 2 never changes the process working
directory, so the removals resolve against the directory `process.cwd()`
pointed at on entry, not against the staging directory. -/
def cleanPythontex2 (env : Env) (st : St) : St :=
  { st with initCwd :=
              dirErase (dirErase st.initCwd ("pythontex-files-" ++ env.filename))
                (env.filename ++ ".pytxcode") }

/-- Variant 2, lines 309-313: read the document from the working directory,
run the external `compileJsLatex` transform, and write the resulting `.tex`
file at a relative path, which resolves against the entry working directory
of the process.  Reading a missing document fails with ENOENT. -/
def compileJsLatexStep (env : Env) (st : St) : St × Option Err :=
  match dirLookup st.working (env.filename ++ ".tex") with
  | none => (st, some (Err.fsError 1))
  | some e =>
    ({ st with initCwd :=
                 upsertForce st.initCwd (env.filename ++ ".tex")
                   { kind := EKind.file, content := env.jsCompile e.content } }, none)

/-- Variant 1 pass loop (lines 109-121): one unconditional engine pass; if
`<filename>.pytxcode` now exists in the staging directory, run `pythontex`
and one more engine pass; if `<filename>.bcf` then exists, run `biber` and
one more engine pass. -/
def passLoop1 (env : Env) (o : Oracle) (st : St) : St × Option Err :=
  andThen (callLatex o Tool.lualatex st) (fun st1 =>
    andThen
      (if (dirLookup st1.staging (env.filename ++ ".pytxcode")).isSome then
         andThen (callLatex o Tool.pythontex st1) (fun stp => callLatex o Tool.lualatex stp)
       else (st1, none))
      (fun st2 =>
        if (dirLookup st2.staging (env.filename ++ ".bcf")).isSome then
          andThen (callLatex o Tool.biber st2) (fun stb => callLatex o Tool.lualatex stb)
        else (st2, none)))

/-- Variant 2 pass loop (lines 315-327): textually the same conditional
multi-pass structure as variant 1 (the only differences are the explicit
`cwd: tempDir` option and the reassigned engine argument, neither of which
changes which tools run). -/
def passLoop2 (env : Env) (o : Oracle) (st : St) : St × Option Err :=
  andThen (callLatex o Tool.lualatex st) (fun st1 =>
    andThen
      (if (dirLookup st1.staging (env.filename ++ ".pytxcode")).isSome then
         andThen (callLatex o Tool.pythontex st1) (fun stp => callLatex o Tool.lualatex stp)
       else (st1, none))
      (fun st2 =>
        if (dirLookup st2.staging (env.filename ++ ".bcf")).isSome then
          andThen (callLatex o Tool.biber st2) (fun stb => callLatex o Tool.lualatex stb)
        else (st2, none)))

/-- Copy the selected staging entries into the output directory: skip
symbolic links (`lstat` check), and write with `force` (overwrite) or
without (keep existing destination entries).  A copy into a missing output
directory creates it (Node `fs.cp` creates the destination parent). -/
def copyFold (src : FsDir) (force : Bool) (names : List String) (acc : Option FsDir) :
    Option FsDir :=
  names.foldl (fun a n =>
    match dirLookup src n with
    | some e =>
      if e.kind == EKind.symlink then a
      else some (if force then upsertForce (a.getD []) n e else upsertKeep (a.getD []) n e)
    | none => a) acc

/-- Variant 1 success-path publication (lines 123-144): `mkdir` the output
directory, list the staging entries and drop the `.tex` ones, `rm -rf` the
output directory, then copy the remaining non-symlink entries into it with
the default overwrite behaviour.  The net effect starts from a removed
output directory. -/
def publishOutput1 (st : St) : St :=
  let names := (st.staging.map Prod.fst).filter (fun n => extOf n != ".tex")
  { st with output := copyFold st.staging true names none }

/-- Variant 2 `copyTempFilesToOutdir` (lines 239-266): list the staging
entries, drop `.tex` and `.jtex` ones, skip symlinks, and copy the rest into
the output directory with the given `force` flag.  Sources are addressed by
absolute path, so the reads always hit the staging directory. -/
def copyTempFilesToOutdir (force : Bool) (st : St) : St :=
  let names :=
    (st.staging.map Prod.fst).filter (fun n => extOf n != ".tex" && extOf n != ".jtex")
  { st with output := copyFold st.staging force names st.output }

/-- Variant 2 success-path publication (lines 329-330): `mkdir` the output
directory (a no-op when it exists) then `copyTempFilesToOutdir` with
`force: true`.  The output directory is never cleared. -/
def publishOutput2 (st : St) : St :=
  copyTempFilesToOutdir true { st with output := some (st.output.getD []) }

/-- The per-entry walk of the variant 1 failure-path copy: for each selected
name, `lstat` it at a relative path (resolved against the directory given as
`cwdDir`), failing with ENOENT when it is missing there, skipping symlinks,
and otherwise copying with the default overwrite behaviour. -/
def recoveryGo (cwdDir : FsDir) : List String → Option FsDir → Option FsDir × Option Err
  | [], acc => (acc, none)
  | n :: rest, acc =>
    match dirLookup cwdDir n with
    | none => (acc, some (Err.fsError 0))
    | some e =>
      if e.kind == EKind.symlink then recoveryGo cwdDir rest acc
      else recoveryGo cwdDir rest (some (upsertForce (acc.getD []) n e))

/-- Variant 1 failure-path copy (lines 150-171): list the staging directory
by absolute path, drop `.tex` entries, then `lstat` and copy each entry at a
relative path.  The relative paths resolve against the staging directory
only when the failure occurred after `process.chdir(tempDir)`; otherwise
they resolve against the directory the process started in. -/
def recoveryCopy1 (st : St) : St × Option Err :=
  let names := (st.staging.map Prod.fst).filter (fun n => extOf n != ".tex")
  let cwdDir := if st.cwdIsStaging then st.staging else st.initCwd
  let r := recoveryGo cwdDir names st.output
  ({ st with output := r.1 }, r.2)

/-- Variant 1 `compileLatex` (lines 46-175): acquire the deterministic
staging path, mirror the sources, chdir and clean the pythontex artifacts,
run the pass loop, and publish.  On any error, run the failure-path copy and
rethrow the original error, unless the copy itself throws, in which case its
error propagates instead.  The `finally` block only restores the process
working directory; the staging directory is left in place.  (The trailing
`fs.promises.rm(tempLatexWorkflowDir)` of lines 147-149 is a non-recursive
`rm` on the non-empty parent directory: it always fails and is swallowed by
its own `try`, so it is modelled as a no-op.) -/
def compileLatex1 (env : Env) (o : Oracle) (st0 : St) : St × Option Err :=
  let body :=
    andThen (mirrorWorkingDir env o (acquireStaging1 st0)) (fun st1 =>
      andThen (passLoop1 env o (cleanPythontex1 env st1)) (fun st2 =>
        (publishOutput1 st2, none)))
  let afterCatch :=
    match body with
    | (st, none) => (st, none)
    | (st, some e) =>
      match recoveryCopy1 st with
      | (stR, none) => (stR, some e)
      | (stR, some e2) => (stR, some e2)
  ({ afterCatch.1 with cwdIsStaging := false }, afterCatch.2)

/-- The `try` block of variant 2 `compileLatex` (lines 268-330): mirror the
sources, run the (misdirected) pythontex cleanup, run the `compileJsLatex`
preprocessing, run the pass loop, and publish with overwrite. -/
def compileLatex2Try (env : Env) (o : Oracle) (st : St) : St × Option Err :=
  andThen (mirrorWorkingDir env o st) (fun st1 =>
    andThen (compileJsLatexStep env (cleanPythontex2 env st1)) (fun st2 =>
      andThen (passLoop2 env o st2) (fun st3 =>
        (publishOutput2 st3, none))))

/-- Variant 2 `compileLatex` (lines 227-337): acquire a fresh temporary
directory, run the `try` block; on error run `copyTempFilesToOutdir` with
`force: false` and rethrow; in all cases the `finally` block removes the
staging directory recursively (`cleanup()` from `tmp-promise` with
`unsafeCleanup: true`). -/
def compileLatex2 (env : Env) (o : Oracle) (st0 : St) : St × Option Err :=
  let afterCatch :=
    match compileLatex2Try env o (acquireStaging2 st0) with
    | (st, none) => (st, none)
    | (st, some e) => (copyTempFilesToOutdir false st, some e)
  ({ afterCatch.1 with staging := [], stagingExists := false }, afterCatch.2)

/-- Number of shell invocations the mirroring stage makes (0, 1 or 2). -/
def mirrorCalls (env : Env) (w : FsDir) : Nat :=
  (if (workingDirEntriesToSymlink env (w.map Prod.fst)).isEmpty then 0 else 1) +
    (if (workingDirEntriesToCopy env (w.map Prod.fst)).isEmpty then 0 else 1)

/-- Restrict a trace to the engine-style tools the specification talks about
(`lualatex`, `pythontex`, `biber`), dropping the `ln`/`cp` mirroring calls. -/
def toolNames (tr : List (Tool × FsDir)) : List Tool :=
  (tr.map Prod.fst).filter (fun t =>
    decide (t = Tool.lualatex) || decide (t = Tool.pythontex) || decide (t = Tool.biber))

/-- The tool sequence the specification predicts from the two marker
observations. -/
def expectedTrace (m1 m2 : Bool) : List Tool :=
  [Tool.lualatex] ++ (if m1 then [Tool.pythontex, Tool.lualatex] else []) ++
    (if m2 then [Tool.biber, Tool.lualatex] else [])

/-- The staging contents observed by the first engine invocation of a trace. -/
def firstEngineDir (tr : List (Tool × FsDir)) : Option FsDir :=
  (tr.find? (fun p => decide (p.1 = Tool.lualatex))).map Prod.snd

/-- Look up a name in a possibly missing output directory. -/
def outLookup (od : Option FsDir) (n : String) : Option Entry :=
  match od with
  | none => none
  | some d => dirLookup d n

/-- On a build whose subprocesses all succeed (oracle `okOracle f`), whether
the code-execution marker `<filename>.pytxcode` exists in the staging
directory right after the first engine pass: that pass is the invocation
numbered `mirrorCalls env w` and leaves staging contents `f` of that index. -/
def marker1 (env : Env) (f : Nat → FsDir) (w : FsDir) : Bool :=
  (dirLookup (f (mirrorCalls env w)) (env.filename ++ ".pytxcode")).isSome

/-- On the same build, whether the bibliography-control artifact
`<filename>.bcf` exists in the staging directory at the moment the `biber`
condition is evaluated: after the engine re-run that follows `pythontex` when
the code-execution marker fired, and after the first engine pass otherwise. -/
def marker2 (env : Env) (f : Nat → FsDir) (w : FsDir) : Bool :=
  (dirLookup
    (f (if marker1 env f w then mirrorCalls env w + 2 else mirrorCalls env w))
    (env.filename ++ ".bcf")).isSome

/-! ## Concrete fixtures used by witnesses and counterexamples -/

/-- A plain file entry. -/
def fileEnt (c : Nat) : Entry := { kind := EKind.file, content := c }

/-- Default build request: document `doc.tex`, output directory `out`. -/
def envA : Env :=
  { filename := "doc", outBase := "out", ignoreDirectories := [], jsCompile := id }

/-- Empty initial state: empty working directory, no output directory. -/
def stBase : St :=
  { working := [], staging := [], stagingExists := false, output := none,
    initCwd := [], cwdIsStaging := false, trace := [], toolCtr := 0 }

/-- Engine behaviour leaving nothing behind. -/
def fEmpty : Nat → FsDir := fun _ => []

/-- Initial state whose working directory holds the document `doc.tex`. -/
def stDoc : St := { stBase with working := [("doc.tex", fileEnt 5)] }

/-- Engine behaviour producing both markers when run from `stDoc` (one `cp`
mirror call, so the engine passes are the invocations numbered 1, 3 and 5). -/
def fBoth : Nat → FsDir := fun n =>
  if n = 1 then [("doc.pytxcode", fileEnt 0)]
  else if n = 3 then [("doc.bcf", fileEnt 0)] else []

/-- Initial state with a stale `stale.pdf` in the output directory and the
document in the working directory. -/
def stStale : St :=
  { stDoc with output := some [("stale.pdf", fileEnt 9)] }

/-- Engine behaviour whose first pass produces `doc.pdf` and the pythontex
marker. -/
def fPdfPytx : Nat → FsDir := fun _ =>
  [("doc.pdf", fileEnt 5), ("doc.pytxcode", fileEnt 0)]

/-- Oracle on which the second invocation (`pythontex`) fails with status 7
and every other invocation succeeds with `fPdfPytx`. -/
def oPytxFail : Oracle := fun n =>
  if n = 1 then ToolRes.fail 7 else ToolRes.ok (fPdfPytx n)

/-- Initial state with a pre-existing `doc.pdf` (content 1) in the output
directory. -/
def stOutPdf : St :=
  { stBase with output := some [("doc.pdf", fileEnt 1)] }

/-- Build request whose output directory base name carries the `.tex`
extension. -/
def envOutTex : Env :=
  { filename := "doc", outBase := "out.tex", ignoreDirectories := [], jsCompile := id }

/-- Working directory holding one entry named like the output directory. -/
def wOutTex : FsDir := [("out.tex", fileEnt 7)]

/-- Initial state with a stale pythontex marker in the working directory (a
leftover of a previous build of the same document) and an unrelated copy of
the marker in the directory the process started in. -/
def stStaleMarker : St :=
  { stBase with
      working := [("doc.pytxcode", fileEnt 3), ("doc.tex", fileEnt 5)],
      initCwd := [("doc.pytxcode", fileEnt 9)] }

/-- Initial state whose staging location already exists and is non-empty
(what variant 1 leaves behind after a completed build of the same document). -/
def stPreExisting : St :=
  { stBase with stagingExists := true, staging := [("leftover.log", fileEnt 1)] }

/-- Initial state with an asset and the document in the working directory. -/
def stFig : St :=
  { stBase with working := [("fig.png", fileEnt 2), ("doc.tex", fileEnt 5)] }

/-- Oracle on which the second invocation (the `cp` mirror batch) fails with
status 3 and every other invocation succeeds leaving nothing behind. -/
def oCpFail : Oracle := fun n =>
  if n = 1 then ToolRes.fail 3 else ToolRes.ok []

/-- Engine behaviour whose passes leave the bibliography-control artifact. -/
def fBcf : Nat → FsDir := fun _ => [("doc.bcf", fileEnt 0)]

/-- Oracle on which the second invocation (`biber`) exits with status 2 (the
status that indicates that there was nothing to process) and every other
invocation succeeds with `fBcf`. -/
def oBiberNoCitations : Oracle := fun n =>
  if n = 1 then ToolRes.fail 2 else ToolRes.ok (fBcf n)

/-! ## Basic lemmas about the directory model -/

theorem mem_map_of_lookup_some {d : FsDir} {n : String} {e : Entry}
    (h : dirLookup d n = some e) : n ∈ d.map Prod.fst := by
  induction d with
  | nil => simp [dirLookup] at h
  | cons p rest ih =>
    obtain ⟨m, e0⟩ := p
    by_cases hm : m = n
    · simp [hm]
    · rw [dirLookup, if_neg hm] at h
      simpa using Or.inr (ih h)

theorem lookup_eq_none_of_not_mem {d : FsDir} {n : String}
    (h : n ∉ d.map Prod.fst) : dirLookup d n = none := by
  induction d with
  | nil => rfl
  | cons p rest ih =>
    obtain ⟨m, e0⟩ := p
    simp only [List.map_cons, List.mem_cons] at h
    push_neg at h
    rw [dirLookup, if_neg (Ne.symm h.1)]
    exact ih h.2

theorem lookup_isSome_of_mem {d : FsDir} {n : String}
    (h : n ∈ d.map Prod.fst) : (dirLookup d n).isSome := by
  induction d with
  | nil => simp at h
  | cons p rest ih =>
    obtain ⟨m, e0⟩ := p
    by_cases hm : m = n
    · simp [dirLookup, hm]
    · rw [dirLookup, if_neg hm]
      simp only [List.map_cons, List.mem_cons] at h
      rcases h with h | h
      · exact absurd h.symm hm
      · exact ih h

theorem dirLookup_upsertForce_self (d : FsDir) (n : String) (e : Entry) :
    dirLookup (upsertForce d n e) n = some e := by
  induction d with
  | nil => simp [upsertForce, dirLookup]
  | cons p rest ih =>
    obtain ⟨m, e0⟩ := p
    by_cases hm : m = n
    · simp [upsertForce, hm, dirLookup]
    · rw [upsertForce, if_neg hm, dirLookup, if_neg hm]
      exact ih

theorem dirLookup_upsertForce_ne (d : FsDir) (n : String) (e : Entry)
    {m : String} (h : m ≠ n) : dirLookup (upsertForce d n e) m = dirLookup d m := by
  induction d with
  | nil =>
    simp only [upsertForce, dirLookup]
    rw [if_neg (Ne.symm h)]
  | cons p rest ih =>
    obtain ⟨m0, e0⟩ := p
    by_cases hm : m0 = n
    · subst hm
      rw [upsertForce, if_pos rfl, dirLookup, dirLookup, if_neg (Ne.symm h)]
      rw [if_neg (Ne.symm h)]
    · rw [upsertForce, if_neg hm, dirLookup, dirLookup]
      by_cases hm2 : m0 = m
      · simp [hm2]
      · rw [if_neg hm2, if_neg hm2]
        exact ih

theorem dirLookup_append (d1 d2 : FsDir) (n : String) :
    dirLookup (d1 ++ d2) n =
      match dirLookup d1 n with
      | some e => some e
      | none => dirLookup d2 n := by
  induction d1 with
  | nil => rfl
  | cons p rest ih =>
    obtain ⟨m, e0⟩ := p
    by_cases hm : m = n
    · simp [dirLookup, hm]
    · rw [List.cons_append, dirLookup, if_neg hm, dirLookup, if_neg hm]
      exact ih

theorem dirLookup_upsertKeep_of_some (d : FsDir) (n2 : String) (e2 : Entry)
    {n : String} {e : Entry} (h : dirLookup d n = some e) :
    dirLookup (upsertKeep d n2 e2) n = some e := by
  unfold upsertKeep
  split
  · exact h
  · rw [dirLookup_append, h]

theorem dirLookup_upsertKeep_ne (d : FsDir) (n : String) (e : Entry)
    {m : String} (h : m ≠ n) : dirLookup (upsertKeep d n e) m = dirLookup d m := by
  unfold upsertKeep
  split
  · rfl
  · rw [dirLookup_append]
    cases hd : dirLookup d m with
    | some e0 => rfl
    | none =>
      rw [dirLookup, if_neg (Ne.symm h)]
      rfl

/-! ## Lemmas about batched mirroring -/

theorem applyBatch_cons (mk : Entry → Entry) (w : FsDir) (hd : String)
    (tl : List String) (d : FsDir) :
    applyBatch mk w (hd :: tl) d =
      applyBatch mk w tl
        (match dirLookup w hd with
         | some e => upsertForce d hd (mk e)
         | none => d) := rfl

theorem applyBatch_not_mem (mk : Entry → Entry) (w : FsDir) (names : List String)
    {n : String} (h : n ∉ names) :
    ∀ d, dirLookup (applyBatch mk w names d) n = dirLookup d n := by
  induction names with
  | nil => intro d; rfl
  | cons hd tl ih =>
    intro d
    simp only [List.mem_cons] at h
    push_neg at h
    rw [applyBatch_cons]
    rw [ih h.2]
    cases hw : dirLookup w hd with
    | none => rfl
    | some e => exact dirLookup_upsertForce_ne d hd (mk e) h.1

theorem applyBatch_mem (mk : Entry → Entry) (w : FsDir) (names : List String)
    {n : String} {e : Entry} (hmem : n ∈ names) (hw : dirLookup w n = some e) :
    ∀ d, dirLookup (applyBatch mk w names d) n = some (mk e) := by
  induction names with
  | nil => cases hmem
  | cons hd tl ih =>
    intro d
    rw [applyBatch_cons]
    by_cases htl : n ∈ tl
    · exact ih htl _
    · have hhd : hd = n := by
        rcases List.mem_cons.mp hmem with h | h
        · exact h.symm
        · exact absurd h htl
      subst hhd
      rw [hw, applyBatch_not_mem mk w tl htl]
      exact dirLookup_upsertForce_self d hd (mk e)

/-! ## Lemmas about the publication folds -/

theorem copyFold_cons (src : FsDir) (force : Bool) (hd : String) (tl : List String)
    (acc : Option FsDir) :
    copyFold src force (hd :: tl) acc =
      copyFold src force tl
        (match dirLookup src hd with
         | some e =>
           if e.kind == EKind.symlink then acc
           else some (if force then upsertForce (acc.getD []) hd e
                      else upsertKeep (acc.getD []) hd e)
         | none => acc) := rfl

theorem copyFold_mem (src : FsDir) (force : Bool) (names : List String) (n : String) :
    ∀ acc, outLookup (copyFold src force names acc) n ≠ none →
      outLookup acc n ≠ none ∨
        (n ∈ names ∧ ∃ e, dirLookup src n = some e ∧ e.kind ≠ EKind.symlink) := by
  induction names with
  | nil => intro acc h; exact Or.inl h
  | cons hd tl ih =>
    intro acc h
    rw [copyFold_cons] at h
    cases hsrc : dirLookup src hd with
    | none =>
      simp only [hsrc] at h
      rcases ih acc h with h1 | ⟨h1, h2⟩
      · exact Or.inl h1
      · exact Or.inr ⟨List.mem_cons_of_mem _ h1, h2⟩
    | some e =>
      simp only [hsrc] at h
      by_cases hk : e.kind == EKind.symlink
      · rw [if_pos hk] at h
        rcases ih acc h with h1 | ⟨h1, h2⟩
        · exact Or.inl h1
        · exact Or.inr ⟨List.mem_cons_of_mem _ h1, h2⟩
      · rw [if_neg hk] at h
        have hkind : e.kind ≠ EKind.symlink := by
          intro hc; exact hk (by rw [hc]; rfl)
        rcases ih _ h with h1 | ⟨h1, h2⟩
        · by_cases hn : hd = n
          · subst hn
            exact Or.inr ⟨List.mem_cons_self _ _, e, hsrc, hkind⟩
          · left
            have hne : n ≠ hd := fun hc => hn hc.symm
            have hpres :
                dirLookup
                  (if force = true then upsertForce (acc.getD []) hd e
                   else upsertKeep (acc.getD []) hd e) n =
                  dirLookup (acc.getD []) n := by
              split
              · exact dirLookup_upsertForce_ne _ _ _ hne
              · exact dirLookup_upsertKeep_ne _ _ _ hne
            rw [outLookup, hpres] at h1
            cases acc with
            | none => simp [dirLookup] at h1
            | some d => exact h1
        · exact Or.inr ⟨List.mem_cons_of_mem _ h1, h2⟩

theorem copyFold_keep_preserves (src : FsDir) (names : List String) (n : String)
    (e : Entry) :
    ∀ acc, outLookup acc n = some e →
      outLookup (copyFold src false names acc) n = some e := by
  induction names with
  | nil => intro acc h; exact h
  | cons hd tl ih =>
    intro acc h
    rw [copyFold_cons]
    cases hsrc : dirLookup src hd with
    | none =>
      simp only [hsrc]
      exact ih acc h
    | some e0 =>
      simp only [hsrc]
      by_cases hk : e0.kind == EKind.symlink
      · rw [if_pos hk]
        exact ih acc h
      · rw [if_neg hk]
        apply ih
        cases acc with
        | none => simp [outLookup] at h
        | some d =>
          rw [outLookup] at h ⊢
          simp only [Option.getD]
          rw [if_neg (fun hc => Bool.false_ne_true hc)]
          by_cases hn : hd = n
          · subst hn
            unfold upsertKeep
            rw [if_pos (by rw [h]; rfl)]
            exact h
          · rw [dirLookup_upsertKeep_ne _ _ _ (fun hc => hn hc.symm)]
            exact h

theorem recoveryGo_total (cwdDir : FsDir) (names : List String)
    (h : ∀ n ∈ names, (dirLookup cwdDir n).isSome) :
    ∀ acc, (recoveryGo cwdDir names acc).2 = none := by
  induction names with
  | nil => intro acc; rfl
  | cons hd tl ih =>
    intro acc
    have hhd := h hd (List.mem_cons_self _ _)
    obtain ⟨e, he⟩ := Option.isSome_iff_exists.mp hhd
    have htl : ∀ n ∈ tl, (dirLookup cwdDir n).isSome :=
      fun n hn => h n (List.mem_cons_of_mem _ hn)
    rw [recoveryGo]
    simp only [he]
    by_cases hk : e.kind == EKind.symlink
    · rw [if_pos hk]; exact ih htl acc
    · rw [if_neg hk]; exact ih htl _

/-! ## Reduction lemmas for subprocess invocations -/

@[simp] theorem callLatex_okOracle (f : Nat → FsDir) (t : Tool) (st : St) :
    callLatex (okOracle f) t st =
      ({ st with staging := f st.toolCtr,
                 trace := st.trace ++ [(t, st.staging)],
                 toolCtr := st.toolCtr + 1 }, none) := rfl

@[simp] theorem callShell_okOracle (f : Nat → FsDir) (t : Tool) (eff : FsDir → FsDir)
    (st : St) :
    callShell (okOracle f) t eff st =
      ({ st with staging := eff st.staging,
                 trace := st.trace ++ [(t, st.staging)],
                 toolCtr := st.toolCtr + 1 }, none) := rfl

@[simp] theorem callLatex_fst_output (o : Oracle) (t : Tool) (st : St) :
    (callLatex o t st).1.output = st.output := by
  cases h : o st.toolCtr <;> simp [callLatex, h]

@[simp] theorem callLatex_fst_working (o : Oracle) (t : Tool) (st : St) :
    (callLatex o t st).1.working = st.working := by
  cases h : o st.toolCtr <;> simp [callLatex, h]

@[simp] theorem callLatex_fst_initCwd (o : Oracle) (t : Tool) (st : St) :
    (callLatex o t st).1.initCwd = st.initCwd := by
  cases h : o st.toolCtr <;> simp [callLatex, h]

@[simp] theorem callLatex_fst_cwdIsStaging (o : Oracle) (t : Tool) (st : St) :
    (callLatex o t st).1.cwdIsStaging = st.cwdIsStaging := by
  cases h : o st.toolCtr <;> simp [callLatex, h]

@[simp] theorem callShell_fst_output (o : Oracle) (t : Tool) (eff : FsDir → FsDir)
    (st : St) : (callShell o t eff st).1.output = st.output := by
  cases h : o st.toolCtr <;> simp [callShell, h]

@[simp] theorem callShell_fst_working (o : Oracle) (t : Tool) (eff : FsDir → FsDir)
    (st : St) : (callShell o t eff st).1.working = st.working := by
  cases h : o st.toolCtr <;> simp [callShell, h]

@[simp] theorem callShell_fst_initCwd (o : Oracle) (t : Tool) (eff : FsDir → FsDir)
    (st : St) : (callShell o t eff st).1.initCwd = st.initCwd := by
  cases h : o st.toolCtr <;> simp [callShell, h]

@[simp] theorem callShell_fst_cwdIsStaging (o : Oracle) (t : Tool) (eff : FsDir → FsDir)
    (st : St) : (callShell o t eff st).1.cwdIsStaging = st.cwdIsStaging := by
  cases h : o st.toolCtr <;> simp [callShell, h]

/-! ## Lemmas about trace restriction -/

@[simp] theorem toolNames_nil : toolNames [] = [] := rfl

@[simp] theorem toolNames_append (a b : List (Tool × FsDir)) :
    toolNames (a ++ b) = toolNames a ++ toolNames b := by
  simp [toolNames]

@[simp] theorem toolNames_lua (d : FsDir) : toolNames [(Tool.lualatex, d)] = [Tool.lualatex] := rfl

@[simp] theorem toolNames_py (d : FsDir) : toolNames [(Tool.pythontex, d)] = [Tool.pythontex] := rfl

@[simp] theorem toolNames_biber (d : FsDir) : toolNames [(Tool.biber, d)] = [Tool.biber] := rfl

@[simp] theorem toolNames_ln (d : FsDir) : toolNames [(Tool.lnTool, d)] = [] := rfl

@[simp] theorem toolNames_cp (d : FsDir) : toolNames [(Tool.cpTool, d)] = [] := rfl

/-! ## Sequencing lemmas -/

theorem andThen_of_none (r : St × Option Err) (k : St → St × Option Err)
    (h : r.2 = none) : andThen r k = k r.1 := by
  rcases r with ⟨st, x⟩
  cases x with
  | none => rfl
  | some e => cases h

theorem andThen_of_some (r : St × Option Err) (k : St → St × Option Err)
    {e : Err} (h : r.2 = some e) : andThen r k = r := by
  rcases r with ⟨st, x⟩
  cases x with
  | none => cases h
  | some e2 => rfl

/-! ## Characterization of the mirroring stage on an all-success oracle -/

theorem mirror_okOracle_char (env : Env) (f : Nat → FsDir) (st : St) :
    (mirrorWorkingDir env (okOracle f) st).2 = none
    ∧ (mirrorWorkingDir env (okOracle f) st).1.toolCtr
        = st.toolCtr + mirrorCalls env st.working
    ∧ toolNames (mirrorWorkingDir env (okOracle f) st).1.trace = toolNames st.trace
    ∧ (mirrorWorkingDir env (okOracle f) st).1.working = st.working := by
  unfold mirrorWorkingDir mirrorCalls
  by_cases h1 : (workingDirEntriesToSymlink env (st.working.map Prod.fst)).isEmpty <;>
    by_cases h2 : (workingDirEntriesToCopy env (st.working.map Prod.fst)).isEmpty <;>
    (simp [h1, h2, andThen]; try rfl)

/-! ## Characterization of the pass loop on an all-success oracle -/

theorem passLoop1_okOracle_char (env : Env) (f : Nat → FsDir) (st : St) :
    (passLoop1 env (okOracle f) st).2 = none
    ∧ toolNames (passLoop1 env (okOracle f) st).1.trace =
        toolNames st.trace ++
          expectedTrace ((dirLookup (f st.toolCtr) (env.filename ++ ".pytxcode")).isSome)
            ((dirLookup
                (f (if (dirLookup (f st.toolCtr) (env.filename ++ ".pytxcode")).isSome
                    then st.toolCtr + 2 else st.toolCtr))
                (env.filename ++ ".bcf")).isSome) := by
  unfold passLoop1
  by_cases hm1 : (dirLookup (f st.toolCtr) (env.filename ++ ".pytxcode")).isSome
  · by_cases hm2 : (dirLookup (f (st.toolCtr + 1 + 1)) (env.filename ++ ".bcf")).isSome
    · simp [hm1, hm2, andThen, expectedTrace]
      rfl
    · simp [hm1, hm2, andThen, expectedTrace]
      rfl
  · by_cases hm2 : (dirLookup (f st.toolCtr) (env.filename ++ ".bcf")).isSome
    · simp [hm1, hm2, andThen, expectedTrace]
      rfl
    · simp [hm1, hm2, andThen, expectedTrace]

theorem passLoop2_okOracle_char (env : Env) (f : Nat → FsDir) (st : St) :
    (passLoop2 env (okOracle f) st).2 = none
    ∧ toolNames (passLoop2 env (okOracle f) st).1.trace =
        toolNames st.trace ++
          expectedTrace ((dirLookup (f st.toolCtr) (env.filename ++ ".pytxcode")).isSome)
            ((dirLookup
                (f (if (dirLookup (f st.toolCtr) (env.filename ++ ".pytxcode")).isSome
                    then st.toolCtr + 2 else st.toolCtr))
                (env.filename ++ ".bcf")).isSome) := by
  unfold passLoop2
  by_cases hm1 : (dirLookup (f st.toolCtr) (env.filename ++ ".pytxcode")).isSome
  · by_cases hm2 : (dirLookup (f (st.toolCtr + 1 + 1)) (env.filename ++ ".bcf")).isSome
    · simp [hm1, hm2, andThen, expectedTrace]
      rfl
    · simp [hm1, hm2, andThen, expectedTrace]
      rfl
  · by_cases hm2 : (dirLookup (f st.toolCtr) (env.filename ++ ".bcf")).isSome
    · simp [hm1, hm2, andThen, expectedTrace]
      rfl
    · simp [hm1, hm2, andThen, expectedTrace]

/-! ## Field-invariance lemmas -/

theorem andThen_fst_output (r : St × Option Err) (k : St → St × Option Err)
    (hk : ∀ s, (k s).1.output = s.output) :
    (andThen r k).1.output = r.1.output := by
  rcases r with ⟨st, x⟩
  cases x with
  | none => exact hk st
  | some e => rfl

theorem passLoop2_fst_output (env : Env) (o : Oracle) (st : St) :
    (passLoop2 env o st).1.output = st.output := by
  unfold passLoop2
  refine Eq.trans (andThen_fst_output _ _ ?_) (callLatex_fst_output o Tool.lualatex st)
  intro s1
  refine Eq.trans (andThen_fst_output _ _ ?_) ?_
  · intro s2
    split
    · exact Eq.trans
        (andThen_fst_output _ _ (fun s3 => callLatex_fst_output o Tool.lualatex s3))
        (callLatex_fst_output o Tool.biber s2)
    · rfl
  · split
    · exact Eq.trans
        (andThen_fst_output _ _ (fun s3 => callLatex_fst_output o Tool.lualatex s3))
        (callLatex_fst_output o Tool.pythontex s1)
    · rfl

theorem mirror_fst_output (env : Env) (o : Oracle) (st : St) :
    (mirrorWorkingDir env o st).1.output = st.output := by
  unfold mirrorWorkingDir
  refine Eq.trans (andThen_fst_output _ _ ?_) ?_
  · intro s1
    split
    · rfl
    · exact callShell_fst_output o Tool.cpTool _ s1
  · split
    · rfl
    · exact callShell_fst_output o Tool.lnTool _ st

@[simp] theorem cleanPythontex2_output (env : Env) (st : St) :
    (cleanPythontex2 env st).output = st.output := rfl

@[simp] theorem compileJsLatexStep_fst_output (env : Env) (st : St) :
    (compileJsLatexStep env st).1.output = st.output := by
  unfold compileJsLatexStep
  cases h : dirLookup st.working (env.filename ++ ".tex") <;> simp [h]

/-- When the `try` block of variant 2 fails, no stage has touched the output
directory yet: the error always arises before the success-path publication. -/
theorem compileLatex2Try_fail_output (env : Env) (o : Oracle) (st : St)
    (h : (compileLatex2Try env o st).2 ≠ none) :
    (compileLatex2Try env o st).1.output = st.output := by
  unfold compileLatex2Try at h ⊢
  rcases hM : mirrorWorkingDir env o st with ⟨s1, r1⟩
  have hout1 : s1.output = st.output := by
    have hmo := mirror_fst_output env o st
    rw [hM] at hmo
    exact hmo
  cases r1 with
  | some e1 => simpa [andThen] using hout1
  | none =>
    simp only [andThen] at h ⊢
    rcases hJ : compileJsLatexStep env (cleanPythontex2 env s1) with ⟨s2, r2⟩
    have hout2 : s2.output = st.output := by
      have hjo := compileJsLatexStep_fst_output env (cleanPythontex2 env s1)
      rw [hJ] at hjo
      simp only [cleanPythontex2_output] at hjo
      rw [← hout1]
      exact hjo
    cases r2 with
    | some e2 => simpa [andThen] using hout2
    | none =>
      simp only [andThen] at h ⊢
      rcases hP : passLoop2 env o s2 with ⟨s3, r3⟩
      have hout3 : s3.output = st.output := by
        have hpo := passLoop2_fst_output env o s2
        rw [hP] at hpo
        rw [← hout2]
        exact hpo
      cases r3 with
      | some e3 => simpa [andThen] using hout3
      | none => exact absurd (by simp [hM, hJ, hP]) h

/-! ## Record-update projection lemmas -/

@[simp] theorem acquireStaging1_working (st : St) : (acquireStaging1 st).working = st.working := rfl

@[simp] theorem acquireStaging1_trace (st : St) : (acquireStaging1 st).trace = st.trace := rfl

@[simp] theorem acquireStaging1_toolCtr (st : St) : (acquireStaging1 st).toolCtr = st.toolCtr := rfl

@[simp] theorem acquireStaging2_working (st : St) : (acquireStaging2 st).working = st.working := rfl

@[simp] theorem acquireStaging2_trace (st : St) : (acquireStaging2 st).trace = st.trace := rfl

@[simp] theorem acquireStaging2_toolCtr (st : St) : (acquireStaging2 st).toolCtr = st.toolCtr := rfl

@[simp] theorem cleanPythontex1_trace (env : Env) (st : St) :
    (cleanPythontex1 env st).trace = st.trace := rfl

@[simp] theorem cleanPythontex1_toolCtr (env : Env) (st : St) :
    (cleanPythontex1 env st).toolCtr = st.toolCtr := rfl

@[simp] theorem cleanPythontex2_trace (env : Env) (st : St) :
    (cleanPythontex2 env st).trace = st.trace := rfl

@[simp] theorem cleanPythontex2_toolCtr (env : Env) (st : St) :
    (cleanPythontex2 env st).toolCtr = st.toolCtr := rfl

@[simp] theorem cleanPythontex2_working (env : Env) (st : St) :
    (cleanPythontex2 env st).working = st.working := rfl

@[simp] theorem publishOutput1_trace (st : St) : (publishOutput1 st).trace = st.trace := rfl

@[simp] theorem publishOutput1_staging (st : St) : (publishOutput1 st).staging = st.staging := rfl

/-! ## Full-run characterization on an all-success oracle -/

theorem compileLatex1_okOracle_run (env : Env) (f : Nat → FsDir) (st0 : St)
    (htr : st0.trace = []) (hctr : st0.toolCtr = 0) :
    (compileLatex1 env (okOracle f) st0).2 = none ∧
    toolNames (compileLatex1 env (okOracle f) st0).1.trace =
      expectedTrace (marker1 env f st0.working) (marker2 env f st0.working) := by
  obtain ⟨hmN, hmC, hmT, hmW⟩ := mirror_okOracle_char env f (acquireStaging1 st0)
  rcases hM : mirrorWorkingDir env (okOracle f) (acquireStaging1 st0) with ⟨sM, rM⟩
  rw [hM] at hmN hmC hmT hmW
  have hrM : rM = none := hmN
  subst hrM
  have hC : sM.toolCtr = st0.toolCtr + mirrorCalls env st0.working := hmC
  have hT : toolNames sM.trace = toolNames st0.trace := hmT
  obtain ⟨hpN, hpT⟩ := passLoop1_okOracle_char env f (cleanPythontex1 env sM)
  rcases hP : passLoop1 env (okOracle f) (cleanPythontex1 env sM) with ⟨sP, rP⟩
  rw [hP] at hpN hpT
  have hrP : rP = none := hpN
  subst hrP
  have hK : (cleanPythontex1 env sM).toolCtr = mirrorCalls env st0.working := by
    rw [cleanPythontex1_toolCtr, hC, hctr, Nat.zero_add]
  rw [hK] at hpT
  have hTr0 : toolNames (cleanPythontex1 env sM).trace = [] := by
    rw [cleanPythontex1_trace, hT, htr]
    rfl
  rw [hTr0, List.nil_append] at hpT
  constructor
  · simp [compileLatex1, hM, hP, andThen]
  · have hfin : (compileLatex1 env (okOracle f) st0).1.trace = sP.trace := by
      simp [compileLatex1, hM, hP, andThen]
    rw [hfin, hpT]
    rfl

theorem compileLatex2_okOracle_run (env : Env) (f : Nat → FsDir) (st0 : St)
    (htr : st0.trace = []) (hctr : st0.toolCtr = 0)
    (hdoc : (dirLookup st0.working (env.filename ++ ".tex")).isSome) :
    (compileLatex2 env (okOracle f) st0).2 = none ∧
    toolNames (compileLatex2 env (okOracle f) st0).1.trace =
      expectedTrace (marker1 env f st0.working) (marker2 env f st0.working) := by
  obtain ⟨hmN, hmC, hmT, hmW⟩ := mirror_okOracle_char env f (acquireStaging2 st0)
  rcases hM : mirrorWorkingDir env (okOracle f) (acquireStaging2 st0) with ⟨sM, rM⟩
  rw [hM] at hmN hmC hmT hmW
  have hrM : rM = none := hmN
  subst hrM
  have hC : sM.toolCtr = st0.toolCtr + mirrorCalls env st0.working := hmC
  have hT : toolNames sM.trace = toolNames st0.trace := hmT
  have hW : sM.working = st0.working := hmW
  have hdoc2 : (dirLookup (cleanPythontex2 env sM).working (env.filename ++ ".tex")).isSome := by
    rw [cleanPythontex2_working, hW]
    exact hdoc
  obtain ⟨e0, he0⟩ := Option.isSome_iff_exists.mp hdoc2
  have hJ : compileJsLatexStep env (cleanPythontex2 env sM) =
      ({ cleanPythontex2 env sM with
           initCwd := upsertForce (cleanPythontex2 env sM).initCwd (env.filename ++ ".tex")
             { kind := EKind.file, content := env.jsCompile e0.content } }, none) := by
    unfold compileJsLatexStep
    rw [he0]
  set sJ : St :=
    { cleanPythontex2 env sM with
        initCwd := upsertForce (cleanPythontex2 env sM).initCwd (env.filename ++ ".tex")
          { kind := EKind.file, content := env.jsCompile e0.content } } with hsJ
  obtain ⟨hpN, hpT⟩ := passLoop2_okOracle_char env f sJ
  rcases hP : passLoop2 env (okOracle f) sJ with ⟨sP, rP⟩
  rw [hP] at hpN hpT
  have hrP : rP = none := hpN
  subst hrP
  have hK : sJ.toolCtr = mirrorCalls env st0.working := by
    rw [hsJ]
    show (cleanPythontex2 env sM).toolCtr = _
    rw [cleanPythontex2_toolCtr, hC, hctr, Nat.zero_add]
  rw [hK] at hpT
  have hTr0 : toolNames sJ.trace = [] := by
    rw [hsJ]
    show toolNames (cleanPythontex2 env sM).trace = []
    rw [cleanPythontex2_trace, hT, htr]
    rfl
  rw [hTr0, List.nil_append] at hpT
  constructor
  · simp [compileLatex2, compileLatex2Try, hM, hJ, hP, andThen]
  · have hfin : (compileLatex2 env (okOracle f) st0).1.trace = sP.trace := by
      simp [compileLatex2, compileLatex2Try, hM, hJ, hP, andThen, publishOutput2,
        copyTempFilesToOutdir]
    rw [hfin, hpT]
    rfl

/-! ## Claim theorems -/

/-- C1: for every build in which all spawned subprocesses succeed, the
tool-invocation sequence of `compileLatex` (both variants) is determined by
the marker artifacts observed after each engine pass: the engine runs once
unconditionally; exactly when `<filename>.pytxcode` exists after that pass
(`marker1`), `pythontex` runs once followed by one more engine run, strictly
before the bibliography check; exactly when `<filename>.bcf` exists at the
bibliography check (`marker2`), `biber` runs once followed by one more engine
run.  In particular no markers give the trace `[lualatex]` and both markers
give `[lualatex, pythontex, lualatex, biber, lualatex]`. -/
theorem c1_pass_structure (env : Env) (f : Nat → FsDir) (st0 : St)
    (htr : st0.trace = []) (hctr : st0.toolCtr = 0)
    (hdoc : (dirLookup st0.working (env.filename ++ ".tex")).isSome) :
    ((compileLatex1 env (okOracle f) st0).2 = none ∧
      toolNames (compileLatex1 env (okOracle f) st0).1.trace =
        expectedTrace (marker1 env f st0.working) (marker2 env f st0.working)) ∧
    ((compileLatex2 env (okOracle f) st0).2 = none ∧
      toolNames (compileLatex2 env (okOracle f) st0).1.trace =
        expectedTrace (marker1 env f st0.working) (marker2 env f st0.working)) :=
  ⟨compileLatex1_okOracle_run env f st0 htr hctr,
   compileLatex2_okOracle_run env f st0 htr hctr hdoc⟩

/-- Witness for C1 at a concrete input: `doc.tex` in the working directory,
engine passes producing the code-execution marker after the first pass and
the bibliography artifact after the second, giving the full five-tool
sequence in both variants. -/
theorem c1_pass_structure_witness :
    ((compileLatex1 envA (okOracle fBoth) stDoc).2 = none ∧
      toolNames (compileLatex1 envA (okOracle fBoth) stDoc).1.trace =
        expectedTrace (marker1 envA fBoth stDoc.working) (marker2 envA fBoth stDoc.working)) ∧
    ((compileLatex2 envA (okOracle fBoth) stDoc).2 = none ∧
      toolNames (compileLatex2 envA (okOracle fBoth) stDoc).1.trace =
        expectedTrace (marker1 envA fBoth stDoc.working) (marker2 envA fBoth stDoc.working)) :=
  c1_pass_structure envA fBoth stDoc rfl rfl (by decide)

/-- C10: the pass loops of the two `compileLatex` variants are equivalent:
driven by the same subprocess behaviour (same oracle, same invocation
counter), and hence the same sequence of marker-artifact observations, they
invoke the same external tools in the same order and the same number of
times, and fail in the same way.  The staging contents the two loops start
from may differ arbitrarily. -/
theorem c10_loop_equivalence (env : Env) (o : Oracle) (st1 st2 : St)
    (hc : st1.toolCtr = st2.toolCtr)
    (ht : st1.trace.map Prod.fst = st2.trace.map Prod.fst) :
    (passLoop1 env o st1).1.trace.map Prod.fst =
      (passLoop2 env o st2).1.trace.map Prod.fst
    ∧ (passLoop1 env o st1).2 = (passLoop2 env o st2).2 := by
  unfold passLoop1 passLoop2
  simp only [callLatex, hc]
  cases ho : o st2.toolCtr with
  | fail m => simp [andThen, ht]
  | ok d =>
    simp only [andThen]
    by_cases h1 : (dirLookup d (env.filename ++ ".pytxcode")).isSome
    · simp only [h1, if_true, callLatex, andThen]
      cases ho1 : o (st2.toolCtr + 1) with
      | fail m1 => simp [andThen, ht]
      | ok d1 =>
        simp only [andThen, callLatex]
        cases ho2 : o (st2.toolCtr + 1 + 1) with
        | fail m2 => simp [andThen, ht]
        | ok d2 =>
          simp only [andThen]
          by_cases h2 : (dirLookup d2 (env.filename ++ ".bcf")).isSome
          · simp only [h2, if_true, callLatex, andThen]
            cases ho3 : o (st2.toolCtr + 1 + 1 + 1) with
            | fail m3 => simp [andThen, ht]
            | ok d3 =>
              simp only [andThen, callLatex]
              cases ho4 : o (st2.toolCtr + 1 + 1 + 1 + 1) with
              | fail m4 => simp [andThen, ht]
              | ok d4 => simp [andThen, ht]
          · simp [h2, ht]
    · simp only [h1, Bool.false_eq_true, if_false, callLatex, andThen]
      by_cases h2 : (dirLookup d (env.filename ++ ".bcf")).isSome
      · simp only [h2, if_true, callLatex, andThen]
        cases ho1 : o (st2.toolCtr + 1) with
        | fail m1 => simp [andThen, ht]
        | ok d1 =>
          simp only [andThen, callLatex]
          cases ho2 : o (st2.toolCtr + 1 + 1) with
          | fail m2 => simp [andThen, ht]
          | ok d2 => simp [andThen, ht]
      · simp [h2, ht]

/-- Witness for C10 at a concrete input: two loop entry states with equal
invocation counters and trace tool names but different staging contents. -/
theorem c10_loop_equivalence_witness :
    (passLoop1 envA (okOracle fEmpty) stBase).1.trace.map Prod.fst =
      (passLoop2 envA (okOracle fEmpty)
        { stBase with staging := [("other.png", fileEnt 3)] }).1.trace.map Prod.fst
    ∧ (passLoop1 envA (okOracle fEmpty) stBase).2 =
        (passLoop2 envA (okOracle fEmpty)
          { stBase with staging := [("other.png", fileEnt 3)] }).2 :=
  c10_loop_equivalence envA (okOracle fEmpty) stBase
    { stBase with staging := [("other.png", fileEnt 3)] } rfl rfl

/-- On the success path of variant 1, the published output directory is
exactly the copy of the final staging contents: everything previously in the
output directory has been removed. -/
theorem compileLatex1_success_publish (env : Env) (o : Oracle) (st0 : St)
    (hs : (compileLatex1 env o st0).2 = none) :
    (compileLatex1 env o st0).1.output =
      copyFold (compileLatex1 env o st0).1.staging true
        (((compileLatex1 env o st0).1.staging.map Prod.fst).filter
          (fun n => extOf n != ".tex")) none := by
  unfold compileLatex1 at hs ⊢
  rcases hM : mirrorWorkingDir env o (acquireStaging1 st0) with ⟨s1, r1⟩
  cases r1 with
  | some e1 =>
    exfalso
    rcases hR : recoveryCopy1 s1 with ⟨sR, rR⟩
    cases rR <;> simp [andThen, hM, hR] at hs
  | none =>
    rcases hP : passLoop1 env o (cleanPythontex1 env s1) with ⟨s2, r2⟩
    cases r2 with
    | some e2 =>
      exfalso
      rcases hR : recoveryCopy1 s2 with ⟨sR, rR⟩
      cases rR <;> simp [andThen, hM, hP, hR] at hs
    | none =>
      simp [andThen, hM, hP, publishOutput1]

/-- C2 (amended): the tmp-promise variant removes its staging directory on
every exit path: after `compileLatex2` returns or throws, the staging
directory no longer exists.  (The chdir variant does not: see the
counterexample.) -/
theorem c2_staging_released (env : Env) (o : Oracle) (st0 : St) :
    (compileLatex2 env o st0).1.stagingExists = false ∧
    (compileLatex2 env o st0).1.staging = [] := by
  unfold compileLatex2
  rcases hT : compileLatex2Try env o (acquireStaging2 st0) with ⟨sT, rT⟩
  cases rT <;> simp [andThen]

/-- C2 counterexample: a completed (successful) build of the chdir variant
after which the staging directory still exists on disk — the claim says the
staging directory never exists after `compileLatex` returns. -/
theorem c2_counterexample :
    (compileLatex1 envA (okOracle fEmpty) stBase).2 = none ∧
    (compileLatex1 envA (okOracle fEmpty) stBase).1.stagingExists = true := by decide

/-- C3 (amended): on the success path of the chdir variant the output
directory is fully replaced: every entry of the final output directory is a
non-`.tex`, non-symlink entry of the staging directory of this build, so an entry
present before the build and not produced by this build is absent afterward.
(The tmp-promise variant does not clear the output directory: see the
counterexample.) -/
theorem c3_output_replaced (env : Env) (o : Oracle) (st0 : St) (n : String)
    (hs : (compileLatex1 env o st0).2 = none)
    (hn : outLookup (compileLatex1 env o st0).1.output n ≠ none) :
    extOf n ≠ ".tex" ∧
    ∃ e, dirLookup (compileLatex1 env o st0).1.staging n = some e ∧
      e.kind ≠ EKind.symlink := by
  rw [compileLatex1_success_publish env o st0 hs] at hn
  rcases copyFold_mem _ _ _ _ _ hn with h1 | ⟨hmem, e, he, hkind⟩
  · exact absurd rfl h1
  · obtain ⟨-, hpred⟩ := List.mem_filter.mp hmem
    exact ⟨bne_iff_ne.mp hpred, e, he, hkind⟩

/-- Witness for C3 at a concrete input: a successful chdir-variant build whose
engine pass produces `doc.pdf`; the published entry is a real non-`.tex`
build product. -/
theorem c3_output_replaced_witness :
    extOf "doc.pdf" ≠ ".tex" ∧
    ∃ e, dirLookup (compileLatex1 envA (okOracle fPdfPytx) stBase).1.staging
          ("doc.pdf") = some e ∧ e.kind ≠ EKind.symlink :=
  c3_output_replaced envA (okOracle fPdfPytx) stBase ("doc.pdf") (by decide) (by decide)

/-- C3 counterexample: a successful tmp-promise-variant build that produced
no publishable artifact, after which the stale pre-existing output entry
`stale.pdf` is still present — the claim says the output directory is first
cleared, so the stale entry should be absent. -/
theorem c3_counterexample :
    (compileLatex2 envA (okOracle fEmpty) stStale).2 = none ∧
    outLookup (compileLatex2 envA (okOracle fEmpty) stStale).1.output ("stale.pdf") =
      some (fileEnt 9) := by decide

/-- C4 (amended): on the failure path of the tmp-promise variant, the
best-effort recovery copy never overwrites a pre-existing output entry:
every entry of the output directory from before the build is still present,
unchanged, after the failed build.  (The failure-path copy of the chdir variant
uses the default overwrite behaviour and can replace pre-existing entries:
see the counterexample.) -/
theorem c4_no_overwrite_on_failure (env : Env) (o : Oracle) (st0 : St)
    (n : String) (e : Entry)
    (hf : (compileLatex2 env o st0).2 ≠ none)
    (he : outLookup st0.output n = some e) :
    outLookup (compileLatex2 env o st0).1.output n = some e := by
  unfold compileLatex2 at hf ⊢
  rcases hT : compileLatex2Try env o (acquireStaging2 st0) with ⟨sT, rT⟩
  cases rT with
  | none =>
    rw [hT] at hf
    simp [andThen] at hf
  | some er =>
    have hOut : sT.output = st0.output := by
      have h2 := compileLatex2Try_fail_output env o (acquireStaging2 st0) (by rw [hT]; simp)
      rw [hT] at h2
      exact h2
    show outLookup (copyTempFilesToOutdir false sT).output n = some e
    unfold copyTempFilesToOutdir
    apply copyFold_keep_preserves
    rw [hOut]
    exact he

/-- Witness for C4 at a concrete input: the tmp-promise variant fails before
the first engine pass (missing document), and the pre-existing output entry
`doc.pdf` with content 1 survives untouched. -/
theorem c4_no_overwrite_on_failure_witness :
    outLookup (compileLatex2 envA (okOracle fEmpty) stOutPdf).1.output ("doc.pdf") =
      some (fileEnt 1) :=
  c4_no_overwrite_on_failure envA (okOracle fEmpty) stOutPdf ("doc.pdf") (fileEnt 1)
    (by decide) (by decide)

/-- C4 counterexample: in the chdir variant, a build that fails at the
`pythontex` stage copies the staged `doc.pdf` (content 5) over the
pre-existing output entry `doc.pdf` (content 1) — the claim says a
pre-existing output entry is never overwritten on the failure path. -/
theorem c4_counterexample :
    outLookup stOutPdf.output ("doc.pdf") = some (fileEnt 1) ∧
    (compileLatex1 envA oPytxFail stOutPdf).2 = some (Err.latexError 7) ∧
    outLookup (compileLatex1 envA oPytxFail stOutPdf).1.output ("doc.pdf") =
      some (fileEnt 5) := by decide

/-- C8 (amended): when the `try` block of the tmp-promise variant fails with
an error, the best-effort recovery copy runs (the final output directory is
the result of the `force: false` copy) and then that original error — which
the in-model recovery copy cannot replace, since it addresses its sources by
absolute path — is re-raised to the caller.  (In the chdir variant a failure
before `process.chdir` makes the recovery copy itself throw, and that later
error replaces the original one: see the counterexample.) -/
theorem c8_original_error_reraised (env : Env) (o : Oracle) (st0 : St) (e : Err)
    (h : (compileLatex2Try env o (acquireStaging2 st0)).2 = some e) :
    (compileLatex2 env o st0).2 = some e ∧
    (compileLatex2 env o st0).1.output =
      (copyTempFilesToOutdir false (compileLatex2Try env o (acquireStaging2 st0)).1).output := by
  unfold compileLatex2
  rcases hT : compileLatex2Try env o (acquireStaging2 st0) with ⟨sT, rT⟩
  rw [hT] at h
  have hrT : rT = some e := h
  subst hrT
  simp [andThen]

/-- Witness for C8 at a concrete input: the tmp-promise variant fails reading
the missing document (`fsError 1`), the recovery copy runs, and the caller
observes exactly that original error. -/
theorem c8_original_error_reraised_witness :
    (compileLatex2 envA (okOracle fEmpty) stBase).2 = some (Err.fsError 1) ∧
    (compileLatex2 envA (okOracle fEmpty) stBase).1.output =
      (copyTempFilesToOutdir false
        (compileLatex2Try envA (okOracle fEmpty) (acquireStaging2 stBase)).1).output :=
  c8_original_error_reraised envA (okOracle fEmpty) stBase (Err.fsError 1) (by decide)

/-- C8 counterexample: in the chdir variant, the `cp` mirror batch fails with
`execaError 3` before `process.chdir`; the recovery copy then resolves its
relative paths against the original process directory, hits ENOENT, and the
caller observes `fsError 0` instead of the original error. -/
theorem c8_counterexample :
    (mirrorWorkingDir envA oCpFail (acquireStaging1 stFig)).2 = some (Err.execaError 3) ∧
    (compileLatex1 envA oCpFail stFig).2 = some (Err.fsError 0) := by decide

/-- C5 (amended): the source-mirroring classification.  Every non-excluded
working-directory entry is placed in the staging directory exactly once, by
one rule: `.tex` entries are materialized as real copies (never links) and
all other entries appear as symbolic links; excluded entries (ignored names,
names absent from the working directory) are never placed; the output
directory base name is never present among the linked entries — but, because
the copy filter does not exclude it, it does appear among the materialized
copies exactly when its name carries the `.tex` extension (see the
counterexample). -/
theorem c5_mirror_classification (env : Env) (w : FsDir) :
    (∀ n e, dirLookup w n = some e → env.ignoreDirectories.contains n = false →
      extOf n = ".tex" → dirLookup (mirroredDir env w) n = some (copyEntry e)) ∧
    (∀ n e, dirLookup w n = some e → env.ignoreDirectories.contains n = false →
      extOf n ≠ ".tex" → n ≠ env.outBase →
      dirLookup (mirroredDir env w) n = some (linkEntry e)) ∧
    (∀ e, dirLookup (mirroredDir env w) env.outBase = some e →
      e.kind = EKind.file ∧ extOf env.outBase = ".tex") ∧
    (∀ n, dirLookup w n = none → dirLookup (mirroredDir env w) n = none) ∧
    (∀ n, env.ignoreDirectories.contains n = true →
      dirLookup (mirroredDir env w) n = none) := by
  refine ⟨?_, ?_, ?_, ?_, ?_⟩
  · intro n e hw hign hext
    have hnign : n ∉ env.ignoreDirectories := by simpa using hign
    have hmem : n ∈ w.map Prod.fst := mem_map_of_lookup_some hw
    have hcpy : n ∈ workingDirEntriesToCopy env (w.map Prod.fst) :=
      List.mem_filter.mpr ⟨hmem, by simp [hnign, hext]⟩
    exact applyBatch_mem copyEntry w _ hcpy hw _
  · intro n e hw hign hext houtb
    have hnign : n ∉ env.ignoreDirectories := by simpa using hign
    have hmem : n ∈ w.map Prod.fst := mem_map_of_lookup_some hw
    have hncpy : n ∉ workingDirEntriesToCopy env (w.map Prod.fst) := by
      intro hc
      have := (List.mem_filter.mp hc).2
      simp [hext, hnign] at this
    have hlnk : n ∈ workingDirEntriesToSymlink env (w.map Prod.fst) :=
      List.mem_filter.mpr ⟨hmem, by simp [hnign, hext, houtb]⟩
    unfold mirroredDir
    rw [applyBatch_not_mem copyEntry w _ hncpy]
    exact applyBatch_mem linkEntry w _ hlnk hw _
  · intro e h
    by_cases hc : env.outBase ∈ workingDirEntriesToCopy env (w.map Prod.fst)
    · obtain ⟨hmem, hpred⟩ := List.mem_filter.mp hc
      obtain ⟨e0, he0⟩ := Option.isSome_iff_exists.mp (lookup_isSome_of_mem hmem)
      have := applyBatch_mem copyEntry w _ hc he0
        (applyBatch linkEntry w (workingDirEntriesToSymlink env (w.map Prod.fst)) [])
      unfold mirroredDir at h
      rw [this] at h
      obtain rfl : copyEntry e0 = e := Option.some.injEq _ _ ▸ h
      constructor
      · rfl
      · have hext := (Bool.and_eq_true _ _).mp hpred
        exact beq_iff_eq.mp hext.2
    · have hnl : env.outBase ∉ workingDirEntriesToSymlink env (w.map Prod.fst) := by
        intro hl
        have := (List.mem_filter.mp hl).2
        simp at this
      unfold mirroredDir at h
      rw [applyBatch_not_mem copyEntry w _ hc, applyBatch_not_mem linkEntry w _ hnl] at h
      cases h
  · intro n hw
    have hnm : n ∉ w.map Prod.fst := by
      intro hc
      have hsome := lookup_isSome_of_mem hc
      rw [hw] at hsome
      cases hsome
    have hncpy : n ∉ workingDirEntriesToCopy env (w.map Prod.fst) :=
      fun hc => hnm (List.mem_of_mem_filter hc)
    have hnl : n ∉ workingDirEntriesToSymlink env (w.map Prod.fst) :=
      fun hl => hnm (List.mem_of_mem_filter hl)
    unfold mirroredDir
    rw [applyBatch_not_mem copyEntry w _ hncpy, applyBatch_not_mem linkEntry w _ hnl]
    rfl
  · intro n hign
    have hmign : n ∈ env.ignoreDirectories := by simpa using hign
    have hncpy : n ∉ workingDirEntriesToCopy env (w.map Prod.fst) := by
      intro hc
      have := (List.mem_filter.mp hc).2
      simp [hmign] at this
    have hnl : n ∉ workingDirEntriesToSymlink env (w.map Prod.fst) := by
      intro hl
      have := (List.mem_filter.mp hl).2
      simp [hmign] at this
    unfold mirroredDir
    rw [applyBatch_not_mem copyEntry w _ hncpy, applyBatch_not_mem linkEntry w _ hnl]
    rfl

/-- Witness for C5 at a concrete input: in a working directory holding
`fig.png` and `doc.tex`, the asset is mirrored as a symbolic link and the
document is materialized as a real copy. -/
theorem c5_mirror_classification_witness :
    dirLookup (mirroredDir envA stFig.working) ("doc.tex") = some (copyEntry (fileEnt 5)) ∧
    dirLookup (mirroredDir envA stFig.working) ("fig.png") = some (linkEntry (fileEnt 2)) :=
  ⟨(c5_mirror_classification envA stFig.working).1 ("doc.tex") (fileEnt 5)
      (by decide) (by decide) (by decide),
   (c5_mirror_classification envA stFig.working).2.1 ("fig.png") (fileEnt 2)
      (by decide) (by decide) (by decide) (by decide)⟩

/-- C5 counterexample: when the output directory base name carries the
`.tex` extension (`out.tex`), a working-directory entry with that very name
is materialized into the staging directory — the claim says an entry equal
to the output directory base name is never present among the mirrored or
materialized entries. -/
theorem c5_counterexample :
    envOutTex.outBase = "out.tex" ∧
    dirLookup (mirroredDir envOutTex wOutTex) (envOutTex.outBase) =
      some (fileEnt 7) := by decide

/-- C6 (code bug, variant 2): with a stale `doc.pytxcode` in the working
directory (and another in the directory the process started in), the
tmp-promise variant symlinks the stale marker into the staging directory and
its cleanup `rm` calls — whose relative paths resolve against the process
working directory, not the staging directory — fail to remove it: the first
engine pass sees the stale marker.  The same run deletes `doc.pytxcode`
from the directory the process started in.  The chdir variant, whose `rm`
runs after `process.chdir(tempDir)`, correctly hides the marker from the
first engine pass (third conjunct). -/
theorem c6_stale_marker_visible :
    Option.bind
        (firstEngineDir (compileLatex2 envA (okOracle fEmpty) stStaleMarker).1.trace)
        (fun d => dirLookup d ("doc.pytxcode")) =
      some { kind := EKind.symlink, content := 3 } ∧
    dirLookup (compileLatex2 envA (okOracle fEmpty) stStaleMarker).1.initCwd
        ("doc.pytxcode") = none ∧
    Option.bind
        (firstEngineDir (compileLatex1 envA (okOracle fEmpty) stStaleMarker).1.trace)
        (fun d => dirLookup d ("doc.pytxcode")) = none := by decide

/-- C7 (amended): in both variants the acquired staging directory is empty at
the moment the build starts populating it.  (Variant 2 additionally acquires
it under a fresh name; variant 1 does not — see the counterexample.) -/
theorem c7_staging_empty_on_acquire (st : St) :
    ((acquireStaging1 st).staging = [] ∧ (acquireStaging1 st).stagingExists = true) ∧
    ((acquireStaging2 st).staging = [] ∧ (acquireStaging2 st).stagingExists = true) :=
  ⟨⟨rfl, rfl⟩, ⟨rfl, rfl⟩⟩

/-- C7 counterexample: variant 1 derives its staging path from the build
request alone (`workingDir/../.latex-workflow/filenamify(filename)`), and a
completed build leaves that directory in place, so
the next acquisition targets a location that already exists and is
non-empty — refuting "a fresh temporary name that did not previously exist".
The acquisition proceeds anyway, clearing the old contents. -/
theorem c7_counterexample :
    stPreExisting.stagingExists = true ∧
    dirLookup stPreExisting.staging ("leftover.log") = some (fileEnt 1) ∧
    (acquireStaging1 stPreExisting).stagingExists = true ∧
    (acquireStaging1 stPreExisting).staging = [] := by decide

/-- The mirroring stage succeeds and advances the invocation counter by the
number of its shell calls whenever the oracle is successful on the indices
the stage consults; the chdir flag is untouched. -/
theorem mirror_okBelow_char (env : Env) (o : Oracle) (f : Nat → FsDir) (st : St)
    (hok : ∀ i, st.toolCtr ≤ i → i < st.toolCtr + mirrorCalls env st.working →
      o i = ToolRes.ok (f i)) :
    (mirrorWorkingDir env o st).2 = none
    ∧ (mirrorWorkingDir env o st).1.toolCtr = st.toolCtr + mirrorCalls env st.working
    ∧ (mirrorWorkingDir env o st).1.cwdIsStaging = st.cwdIsStaging := by
  by_cases h1 : (workingDirEntriesToSymlink env (st.working.map Prod.fst)).isEmpty <;>
    by_cases h2 : (workingDirEntriesToCopy env (st.working.map Prod.fst)).isEmpty
  · have hk : mirrorCalls env st.working = 0 := by simp [mirrorCalls, h1, h2]
    simp [mirrorWorkingDir, h1, h2, andThen, hk]
  · have hk : mirrorCalls env st.working = 1 := by simp [mirrorCalls, h1, h2]
    rw [hk] at hok
    have ho0 := hok st.toolCtr (Nat.le_refl _) (by omega)
    simp [mirrorWorkingDir, h1, h2, andThen, callShell, ho0, hk]
  · have hk : mirrorCalls env st.working = 1 := by simp [mirrorCalls, h1, h2]
    rw [hk] at hok
    have ho0 := hok st.toolCtr (Nat.le_refl _) (by omega)
    simp [mirrorWorkingDir, h1, h2, andThen, callShell, ho0, hk]
  · have hk : mirrorCalls env st.working = 2 := by simp [mirrorCalls, h1, h2]
    rw [hk] at hok
    have ho0 := hok st.toolCtr (Nat.le_refl _) (by omega)
    have ho1 := hok (st.toolCtr + 1) (by omega) (by omega)
    simp [mirrorWorkingDir, h1, h2, andThen, callShell, ho0, ho1, hk]

/-- When the failure occurred after `process.chdir(tempDir)`, the failure-path
copy of variant 1 cannot itself throw: every entry it stats comes from the
staging directory listing and the relative paths resolve against the staging
directory. -/
theorem recoveryCopy1_total_of_chdir (st : St) (h : st.cwdIsStaging = true) :
    (recoveryCopy1 st).2 = none := by
  unfold recoveryCopy1
  simp only [h, if_true]
  exact recoveryGo_total _ _
    (fun n hn => lookup_isSome_of_mem (List.mem_of_mem_filter hn)) _

/-- C9 (amended): every non-zero exit of the bibliography tool — including
the exit status that solely indicates that there was nothing to process — is
fatal for the build: `runLatex` wraps every `execa` failure uniformly into a
`LatexError`, which `compileLatex` re-raises to the caller after the
recovery copy.  The code contains no special case for any `biber` exit
status. -/
theorem c9_biber_exit_always_fatal (env : Env) (f : Nat → FsDir) (st0 : St) (m : Nat)
    (hctr : st0.toolCtr = 0)
    (hp : dirLookup (f (mirrorCalls env st0.working)) (env.filename ++ ".pytxcode") = none)
    (hb : (dirLookup (f (mirrorCalls env st0.working)) (env.filename ++ ".bcf")).isSome) :
    (compileLatex1 env
      (fun n => if n = mirrorCalls env st0.working + 1 then ToolRes.fail m
                else ToolRes.ok (f n))
      st0).2 = some (Err.latexError m) := by
  have hok : ∀ i, (acquireStaging1 st0).toolCtr ≤ i →
      i < (acquireStaging1 st0).toolCtr + mirrorCalls env (acquireStaging1 st0).working →
      (fun n => if n = mirrorCalls env st0.working + 1 then ToolRes.fail m
                else ToolRes.ok (f n)) i = ToolRes.ok (f i) := by
    intro i hi1 hi2
    simp only [acquireStaging1_toolCtr, acquireStaging1_working] at hi1 hi2
    rw [hctr] at hi2
    have hne : i ≠ mirrorCalls env st0.working + 1 := by omega
    simp [hne]
  obtain ⟨hmN, hmC, hmCw⟩ := mirror_okBelow_char env _ f (acquireStaging1 st0) hok
  rcases hM : mirrorWorkingDir env
      (fun n => if n = mirrorCalls env st0.working + 1 then ToolRes.fail m
                else ToolRes.ok (f n))
      (acquireStaging1 st0) with ⟨sM, rM⟩
  rw [hM] at hmN hmC hmCw
  have hrM : rM = none := hmN
  subst hrM
  have hSm : sM.toolCtr = mirrorCalls env st0.working := by
    have h0 : sM.toolCtr = st0.toolCtr + mirrorCalls env st0.working := hmC
    rw [h0, hctr, Nat.zero_add]
  have hloopSnd : (passLoop1 env
      (fun n => if n = mirrorCalls env st0.working + 1 then ToolRes.fail m
                else ToolRes.ok (f n))
      (cleanPythontex1 env sM)).2 = some (Err.latexError m) := by
    unfold passLoop1
    simp [callLatex, andThen, hSm, hp, hb]
  have hloopCw : (passLoop1 env
      (fun n => if n = mirrorCalls env st0.working + 1 then ToolRes.fail m
                else ToolRes.ok (f n))
      (cleanPythontex1 env sM)).1.cwdIsStaging = true := by
    unfold passLoop1
    simp [callLatex, andThen, hSm, hp, hb, cleanPythontex1]
  rcases hP : passLoop1 env
      (fun n => if n = mirrorCalls env st0.working + 1 then ToolRes.fail m
                else ToolRes.ok (f n))
      (cleanPythontex1 env sM) with ⟨sP, rP⟩
  rw [hP] at hloopSnd hloopCw
  have hrP : rP = some (Err.latexError m) := hloopSnd
  subst hrP
  have hrecN : (recoveryCopy1 sP).2 = none := recoveryCopy1_total_of_chdir sP hloopCw
  rcases hR : recoveryCopy1 sP with ⟨sR, rR⟩
  rw [hR] at hrecN
  have hrR : rR = none := hrecN
  subst hrR
  simp [compileLatex1, hM, hP, hR, andThen]

/-- Witness for C9 at a concrete input: an empty working directory, a first
engine pass producing `doc.bcf`, and `biber` exiting with the
nothing-to-process status 2: the caller observes `LatexError 2`. -/
theorem c9_biber_exit_always_fatal_witness :
    (compileLatex1 envA
      (fun n => if n = mirrorCalls envA stBase.working + 1 then ToolRes.fail 2
                else ToolRes.ok (fBcf n))
      stBase).2 = some (Err.latexError 2) :=
  c9_biber_exit_always_fatal envA fBcf stBase 2 rfl (by decide) (by decide)

/-- C9 counterexample: a chdir-variant build in which `biber` exits with the
status indicating that there was nothing to process (modelled as status 2):
the build raises `LatexError 2` — the claim says this exit is not treated as
a build failure and no error is raised for that invocation. -/
theorem c9_counterexample :
    (compileLatex1 envA oBiberNoCitations stBase).2 = some (Err.latexError 2) ∧
    toolNames (compileLatex1 envA oBiberNoCitations stBase).1.trace =
      [Tool.lualatex, Tool.biber] := by decide
